import Mathlib

/-!
Verification development for the Mach-O code-signing decoder in
`tugger-apple-codesign/src/macho.rs`.

The Rust source is shallowly embedded: byte buffers become `List Nat`
(each entry a byte value), machine integers become `Nat` with explicit
bounds where overflow matters, and every fallible decoder returns a
`POutcome` value distinguishing the three observable behaviours of the
Rust code on a given input:

* `POutcome.ok v`      -- the function returns `Ok(v)`;
* `POutcome.error e`   -- the function returns `Err(e)` (a `MachOParseError`);
* `POutcome.panic`     -- the function aborts: out-of-bounds slice
  indexing, or unchecked integer arithmetic that overflows.  Unchecked
  `u32` arithmetic is modelled with Rust debug-build semantics (overflow
  and underflow panic).  Release builds would wrap instead of panicking
  at the arithmetic, but would then panic at the subsequent out-of-range
  slice index; in neither build does a taxonomy error result.

Recursive decoders (`BlobData::from_bytes` / `RequirementsBlob::from_bytes`
and `Expression::from_bytes`) are embedded with an explicit fuel
parameter; the top-level wrappers supply `data.length + 1` fuel.  Fuel
exhaustion models the unbounded recursion (stack exhaustion) that the
Rust code would exhibit and is mapped to `POutcome.panic`; no claim in
this development depends on the fuel-exhaustion branch.
-/

namespace AppleCodesign

/-- A byte buffer: the Rust `&[u8]` slices are lists of byte values. -/
abbrev Bytes := List Nat

/-- The error taxonomy of `enum MachOParseError` in `macho.rs`.  Payloads
(the underlying `scroll::Error` and `Utf8Error` values) are dropped:
only the kind of error is relevant to the specification claims. -/
inductive MachOParseError where
  | missingLinkedit
  | badMagic
  | scroll
  | utf8
  | badIdentifierString
deriving DecidableEq, Repr

/-- Outcome of running a Rust decoder on an input: success, a returned
error, or a panic/abort. -/
inductive POutcome (α : Type) where
  | panic : POutcome α
  | error : MachOParseError → POutcome α
  | ok : α → POutcome α
deriving DecidableEq, Repr

namespace POutcome

def bind {α β : Type} : POutcome α → (α → POutcome β) → POutcome β
  | .panic, _ => .panic
  | .error e, _ => .error e
  | .ok a, k => k a

instance : Monad POutcome where
  pure := POutcome.ok
  bind := POutcome.bind

def isPanic {α : Type} : POutcome α → Bool
  | .panic => true
  | _ => false

def isOk {α : Type} : POutcome α → Bool
  | .ok _ => true
  | _ => false

def getOk? {α : Type} : POutcome α → Option α
  | .ok a => some a
  | _ => none

theorem bindDef {α β : Type} (e : POutcome α) (k : α → POutcome β) :
    e >>= k = POutcome.bind e k := rfl

theorem pureDef {α : Type} (a : α) : (pure a : POutcome α) = POutcome.ok a := rfl

@[simp] theorem panic_bind {α β : Type} (k : α → POutcome β) :
    (POutcome.panic : POutcome α) >>= k = POutcome.panic := rfl

@[simp] theorem error_bind {α β : Type} (e : MachOParseError) (k : α → POutcome β) :
    (POutcome.error e : POutcome α) >>= k = POutcome.error e := rfl

@[simp] theorem ok_bind {α β : Type} (a : α) (k : α → POutcome β) :
    (POutcome.ok a : POutcome α) >>= k = k a := rfl

theorem bind_ok {α β : Type} {e : POutcome α} {k : α → POutcome β} {b : β}
    (h : POutcome.bind e k = .ok b) : ∃ a, e = .ok a ∧ k a = .ok b := by
  cases e with
  | ok a => exact ⟨a, rfl, h⟩
  | panic => exact absurd h (by simp [POutcome.bind])
  | error e => exact absurd h (by simp [POutcome.bind])

end POutcome

/-! ## Primitive reader

Models the `scroll` crate's `pread_with`/`gread_with` big-endian reads
and Rust slice indexing.  A read past the end of the buffer is a
`scroll::Error` (`MachOParseError.scroll` here); slice indexing out of
range is a panic. -/

/-- Big-endian value of `k` bytes of `data` starting at `off`
(most significant byte first).  Out-of-range positions contribute 0;
`preadBE` only exposes this value when the range is in bounds. -/
def beNat : Nat → Bytes → Nat → Nat
  | 0, _, _ => 0
  | k + 1, data, off => beNat k data off * 256 + data.getD (off + k) 0

/-- `data.pread_with::<uN>(off, scroll::BE)`: big-endian read of `k`
bytes at absolute offset `off`, failing with a scroll error when the
read extends past the buffer. -/
def preadBE (k : Nat) (data : Bytes) (off : Nat) : POutcome Nat :=
  if off + k ≤ data.length then .ok (beNat k data off) else .error .scroll

/-- Rust slice expression `&data[a..b]`: panics unless `a ≤ b ≤ data.len()`. -/
def slice (data : Bytes) (a b : Nat) : POutcome Bytes :=
  if a ≤ b ∧ b ≤ data.length then .ok ((data.drop a).take (b - a)) else .panic

/-- Rust slice expression `&data[a..]`: panics unless `a ≤ data.len()`. -/
def sliceFrom (data : Bytes) (a : Nat) : POutcome Bytes :=
  if a ≤ data.length then .ok (data.drop a) else .panic

/-- Unchecked Rust `u32` multiplication (`hash_size as u32 * n_special_slots`):
panics on overflow (debug semantics). -/
def mulU32 (a b : Nat) : POutcome Nat :=
  if a * b < 4294967296 then .ok (a * b) else .panic

/-- Unchecked Rust `u32` subtraction (`hash_offset - ...`): panics on
underflow (debug semantics). -/
def subU32 (a b : Nat) : POutcome Nat :=
  if b ≤ a then .ok (a - b) else .panic

/-- `2u32.pow(exp)`: panics when the power overflows `u32` (debug semantics). -/
def pow2u32 (e : Nat) : POutcome Nat :=
  if e < 32 then .ok (2 ^ e) else .panic

/-! ## UTF-8 validation (`std::str::from_utf8`) -/

/-- A UTF-8 continuation byte: `0x80..=0xBF`. -/
def utf8Cont (b : Nat) : Bool := 0x80 ≤ b && b ≤ 0xBF

/-- UTF-8 validity of a byte sequence, exactly as `std::str::from_utf8`
checks it: no overlong encodings, no surrogates, maximum U+10FFFF. -/
def utf8Valid : Bytes → Bool
  | [] => true
  | b0 :: rest =>
    if b0 < 0x80 then utf8Valid rest
    else if b0 < 0xC2 then false
    else if b0 < 0xE0 then
      match rest with
      | b1 :: rest1 => utf8Cont b1 && utf8Valid rest1
      | [] => false
    else if b0 < 0xF0 then
      match rest with
      | b1 :: b2 :: rest2 =>
        (if b0 = 0xE0 then decide (0xA0 ≤ b1 ∧ b1 ≤ 0xBF)
         else if b0 = 0xED then decide (0x80 ≤ b1 ∧ b1 ≤ 0x9F)
         else utf8Cont b1) && utf8Cont b2 && utf8Valid rest2
      | _ => false
    else if b0 < 0xF5 then
      match rest with
      | b1 :: b2 :: b3 :: rest3 =>
        (if b0 = 0xF0 then decide (0x90 ≤ b1 ∧ b1 ≤ 0xBF)
         else if b0 = 0xF4 then decide (0x80 ≤ b1 ∧ b1 ≤ 0x8F)
         else utf8Cont b1) && utf8Cont b2 && utf8Cont b3 && utf8Valid rest3
      | _ => false
    else false

/-- `std::str::from_utf8(l)`: returns the same bytes (a `&str` is a view
of the validated bytes) or the UTF-8 error. -/
def strFromUtf8 (l : Bytes) : POutcome Bytes :=
  if utf8Valid l then .ok l else .error .utf8

/-- Rust `slice::split(|&b| b == 0)` materialised as a list of chunks.
An empty slice yields one empty chunk, like the Rust iterator. -/
def splitOnZero : Bytes → List Bytes
  | [] => [[]]
  | 0 :: rest => [] :: splitOnZero rest
  | b :: rest =>
    match splitOnZero rest with
    | chunk :: more => (b :: chunk) :: more
    | [] => [[b]]

theorem splitOnZero_ne_nil (l : Bytes) : splitOnZero l ≠ [] := by
  induction l with
  | nil => simp [splitOnZero]
  | cons b rest ih =>
    match b with
    | 0 => simp [splitOnZero]
    | Nat.succ n =>
      simp only [splitOnZero]
      cases h : splitOnZero rest with
      | nil => exact absurd h ih
      | cons c m => simp

/-! ## Slot and magic enums -/

/-- `enum CodeSigningSlot` from `macho.rs`. -/
inductive CodeSigningSlot where
  | codeDirectory
  | info
  | requirements
  | resourceDir
  | application
  | entitlements
  | alternateCodeDirectory0
  | alternateCodeDirectory1
  | alternateCodeDirectory2
  | alternateCodeDirectory3
  | alternateCodeDirectory4
  | signature
  | identification
  | ticket
  | unknown : Nat → CodeSigningSlot
deriving DecidableEq, Repr

/-- `impl From<u32> for CodeSigningSlot`. -/
def CodeSigningSlot.fromU32 (v : Nat) : CodeSigningSlot :=
  if v = 0 then .codeDirectory
  else if v = 1 then .info
  else if v = 2 then .requirements
  else if v = 3 then .resourceDir
  else if v = 4 then .application
  else if v = 5 then .entitlements
  else if v = 0x1000 then .alternateCodeDirectory0
  else if v = 0x1001 then .alternateCodeDirectory1
  else if v = 0x1002 then .alternateCodeDirectory2
  else if v = 0x1003 then .alternateCodeDirectory3
  else if v = 0x1004 then .alternateCodeDirectory4
  else if v = 0x10000 then .signature
  else if v = 0x10001 then .identification
  else if v = 0x10002 then .ticket
  else .unknown v

/-- `impl Into<u32> for CodeSigningSlot`. -/
def CodeSigningSlot.toU32 : CodeSigningSlot → Nat
  | .codeDirectory => 0
  | .info => 1
  | .requirements => 2
  | .resourceDir => 3
  | .application => 4
  | .entitlements => 5
  | .alternateCodeDirectory0 => 0x1000
  | .alternateCodeDirectory1 => 0x1001
  | .alternateCodeDirectory2 => 0x1002
  | .alternateCodeDirectory3 => 0x1003
  | .alternateCodeDirectory4 => 0x1004
  | .signature => 0x10000
  | .identification => 0x10001
  | .ticket => 0x10002
  | .unknown v => v

/-- `enum CodeSigningMagic` from `macho.rs`. -/
inductive CodeSigningMagic where
  | requirement
  | requirements
  | codeDirectory
  | embeddedSignature
  | embeddedSignatureOld
  | embeddedEntitlements
  | detachedSignature
  | blobWrapper
  | unknown : Nat → CodeSigningMagic
deriving DecidableEq, Repr

/-- `impl From<u32> for CodeSigningMagic`. -/
def CodeSigningMagic.fromU32 (v : Nat) : CodeSigningMagic :=
  if v = 0xfade0c00 then .requirement
  else if v = 0xfade0c01 then .requirements
  else if v = 0xfade0c02 then .codeDirectory
  else if v = 0xfade0cc0 then .embeddedSignature
  else if v = 0xfade0b02 then .embeddedSignatureOld
  else if v = 0xfade7171 then .embeddedEntitlements
  else if v = 0xfade0cc1 then .detachedSignature
  else if v = 0xfade0b01 then .blobWrapper
  else .unknown v

/-- `impl Into<u32> for CodeSigningMagic`. -/
def CodeSigningMagic.toU32 : CodeSigningMagic → Nat
  | .requirement => 0xfade0c00
  | .requirements => 0xfade0c01
  | .codeDirectory => 0xfade0c02
  | .embeddedSignature => 0xfade0cc0
  | .embeddedSignatureOld => 0xfade0b02
  | .embeddedEntitlements => 0xfade7171
  | .detachedSignature => 0xfade0cc1
  | .blobWrapper => 0xfade0b01
  | .unknown v => v

/-- `enum HashType` from `macho.rs`. -/
inductive HashType where
  | none
  | sha1
  | sha256
  | sha256Truncated
  | sha384
  | unknown : Nat → HashType
deriving DecidableEq, Repr

/-- `impl From<u8> for HashType`. -/
def HashType.fromU8 (v : Nat) : HashType :=
  if v = 0 then .none
  else if v = 1 then .sha1
  else if v = 2 then .sha256
  else if v = 3 then .sha256Truncated
  else if v = 4 then .sha384
  else .unknown v

/-- `impl Into<u8> for HashType`. -/
def HashType.toU8 : HashType → Nat
  | .none => 0
  | .sha1 => 1
  | .sha256 => 2
  | .sha256Truncated => 3
  | .sha384 => 4
  | .unknown v => v

/-! ## Blob header reader -/

/-- `fn read_blob_header`: read the common `{magic, length}` prefix and
return `(magic, length, &data[8..])`. -/
def readBlobHeader (data : Bytes) : POutcome (Nat × Nat × Bytes) := do
  let magic ← preadBE 4 data 0
  let length ← preadBE 4 data 4
  let tail ← sliceFrom data 8
  pure (magic, length, tail)

/-- `fn read_and_validate_blob_header`: additionally compare the magic
against an expected constant, failing with `BadMagic` on mismatch. -/
def readAndValidateBlobHeader (data : Bytes) (expectedMagic : Nat) :
    POutcome Bytes := do
  let (magic, _, tail) ← readBlobHeader data
  if magic = expectedMagic then pure tail else .error .badMagic

/-! ## Requirement expressions -/

/-- `enum Expression` from `macho.rs`.  Constructor names follow the
source variants (`False`/`True`/`Not` are renamed to avoid clashing
with the Lean prelude). -/
inductive Expression where
  | fls
  | tru
  | ident : Bytes → Expression
  | appleAnchor
  | anchorHash
  | infoKeyValue
  | and : Expression → Expression → Expression
  | or : Expression → Expression → Expression
  | cdHash
  | notExpr
  | infoKeyField
  | certField
  | trustedCert
  | trustedCerts
  | certGeneric
  | appleGenericAnchor
  | entitlementField
  | other : Nat → Expression
deriving DecidableEq, Repr

/-- `Expression::from_bytes`, fuelled.  Mirrors the source exactly: the
cursor `offset` is advanced to 4 by the tag read, `data` is rebound to
`&data[offset..]`, and the tag-2 arm then evaluates
`std::str::from_utf8(&data[*offset..])` — indexing the already-advanced
tail by the offset a second time. -/
def Expression.fromBytesF : Nat → Bytes → POutcome (Expression × Bytes)
  | 0, _ => .panic
  | fuel + 1, data0 => do
    let tag ← preadBE 4 data0 0
    let data ← sliceFrom data0 4
    match tag with
    | 0 => pure (.fls, data)
    | 1 => pure (.tru, data)
    | 2 => do
      let identBytes ← sliceFrom data 4
      let s ← strFromUtf8 identBytes
      pure (.ident s, data)
    | 3 => pure (.appleAnchor, data)
    | 4 => pure (.anchorHash, data)
    | 5 => pure (.infoKeyValue, data)
    | 6 => do
      let (a, data1) ← Expression.fromBytesF fuel data
      let (b, data2) ← Expression.fromBytesF fuel data1
      pure (.and a b, data2)
    | 7 => do
      let (a, data1) ← Expression.fromBytesF fuel data
      let (b, data2) ← Expression.fromBytesF fuel data1
      pure (.or a b, data2)
    | 8 => pure (.cdHash, data)
    | 9 => pure (.notExpr, data)
    | 10 => pure (.infoKeyField, data)
    | 11 => pure (.certField, data)
    | 12 => pure (.trustedCert, data)
    | 13 => pure (.trustedCerts, data)
    | 14 => pure (.certGeneric, data)
    | 15 => pure (.appleGenericAnchor, data)
    | 16 => pure (.entitlementField, data)
    | tag => pure (.other tag, data)

/-- `Expression::from_bytes`: parse an expression, returning it together
with the residual bytes. -/
def Expression.from_bytes (data : Bytes) : POutcome (Expression × Bytes) :=
  Expression.fromBytesF (data.length + 1) data

/-- `struct RequirementBlob`. -/
structure RequirementBlob where
  expression : Expression
deriving DecidableEq, Repr

/-- `RequirementBlob::from_bytes`. -/
def RequirementBlob.from_bytes (data : Bytes) : POutcome RequirementBlob := do
  let tail ← readAndValidateBlobHeader data 0xfade0c00
  let (e, _) ← Expression.from_bytes tail
  pure ⟨e⟩

/-! ## Code directory -/

/-- `struct CodeDirectoryBlob`.  `ident` is the byte content of the
borrowed `&str`; hashes are the byte slices of each `Hash`. -/
structure CodeDirectoryBlob where
  version : Nat
  flags : Nat
  hash_offset : Nat
  ident_offset : Nat
  n_special_slots : Nat
  n_code_slots : Nat
  code_limit : Nat
  hash_size : Nat
  hash_type : HashType
  platform : Nat
  page_size : Nat
  spare2 : Nat
  scatter_offset : Option Nat
  team_offset : Option Nat
  spare3 : Option Nat
  code_limit_64 : Option Nat
  exec_seg_base : Option Nat
  exec_seg_limit : Option Nat
  exec_seg_flags : Option Nat
  runtime : Option Nat
  pre_encrypt_offset : Option Nat
  linkage_hash_type : Option Nat
  linkage_truncated : Option Nat
  spare4 : Option Nat
  linkage_offset : Option Nat
  linkage_size : Option Nat
  ident : Bytes
  code_hashes : List Bytes
  special_hashes : List (CodeSigningSlot × Bytes)
deriving DecidableEq, Repr

/-- A version-gated optional read: read `k` bytes big-endian at `off`
when `c` holds (advancing the cursor), otherwise yield `none`. -/
def readOptBE (k : Nat) (c : Prop) [Decidable c] (data : Bytes) (off : Nat) :
    POutcome (Option Nat × Nat) :=
  if c then
    match preadBE k data off with
    | .ok v => .ok (some v, off + k)
    | .panic => .panic
    | .error e => .error e
  else .ok (none, off)

/-- The identifier lookup in `CodeDirectoryBlob::from_bytes`:
`data[ident_offset..].split(|&b| b == 0).map(str::from_utf8).next()`,
with the `None` arm mapping to `BadIdentifierString`.  (`split` always
yields at least one chunk, so that arm is unreachable; it is kept to
mirror the source.) -/
def identRead (tail : Bytes) : POutcome Bytes :=
  match (splitOnZero tail).head? with
  | some bs => strFromUtf8 bs
  | none => .error .badIdentifierString

/-- `slice::chunks` driven by an explicit step count; `n ≥ 1` and
`fuel ≥ l.length` give all chunks. -/
def chunksGo (n : Nat) : Nat → Bytes → List Bytes
  | 0, _ => []
  | _, [] => []
  | fuel + 1, l => l.take n :: chunksGo n fuel (l.drop n)

/-- `fn get_hashes`: `data[offset..offset + count * hash_size]` split
into `hash_size`-byte chunks.  Rust `chunks` panics on a zero chunk
size; the slice itself panics when out of range. -/
def getHashes (data : Bytes) (off count hashSize : Nat) : POutcome (List Bytes) := do
  let s ← slice data off (off + count * hashSize)
  if hashSize = 0 then .panic else pure (chunksGo hashSize s.length s)

/-- `CodeDirectoryBlob::from_bytes`.  Field reads follow the source
order; the special-hash start offset is the unchecked `u32` expression
`hash_offset - (hash_size as u32 * n_special_slots)`. -/
def CodeDirectoryBlob.from_bytes (data : Bytes) : POutcome CodeDirectoryBlob := do
  let _ ← readAndValidateBlobHeader data 0xfade0c02
  let version ← preadBE 4 data 8
  let flags ← preadBE 4 data 12
  let hash_offset ← preadBE 4 data 16
  let ident_offset ← preadBE 4 data 20
  let n_special_slots ← preadBE 4 data 24
  let n_code_slots ← preadBE 4 data 28
  let code_limit ← preadBE 4 data 32
  let hash_size ← preadBE 1 data 36
  let hash_type_raw ← preadBE 1 data 37
  let platform ← preadBE 1 data 38
  let page_size_exp ← preadBE 1 data 39
  let page_size ← pow2u32 page_size_exp
  let spare2 ← preadBE 4 data 40
  let (scatter_offset, off) ← readOptBE 4 (0x20100 ≤ version) data 44
  let (team_offset, off) ← readOptBE 4 (0x20200 ≤ version) data off
  let (spare3, off) ← readOptBE 4 (0x20300 ≤ version) data off
  let (code_limit_64, off) ← readOptBE 8 (0x20300 ≤ version) data off
  let (exec_seg_base, off) ← readOptBE 8 (0x20400 ≤ version) data off
  let (exec_seg_limit, off) ← readOptBE 8 (0x20400 ≤ version) data off
  let (exec_seg_flags, off) ← readOptBE 8 (0x20400 ≤ version) data off
  let (runtime, off) ← readOptBE 4 (0x20500 ≤ version) data off
  let (pre_encrypt_offset, off) ← readOptBE 4 (0x20500 ≤ version) data off
  let (linkage_hash_type, off) ← readOptBE 1 (0x20600 ≤ version) data off
  let (linkage_truncated, off) ← readOptBE 1 (0x20600 ≤ version) data off
  let (spare4, off) ← readOptBE 2 (0x20600 ≤ version) data off
  let (linkage_offset, off) ← readOptBE 4 (0x20600 ≤ version) data off
  let (linkage_size, _) ← readOptBE 4 (0x20600 ≤ version) data off
  let identTail ← sliceFrom data ident_offset
  let ident ← identRead identTail
  let code_hashes ← getHashes data hash_offset n_code_slots hash_size
  let specialProduct ← mulU32 hash_size n_special_slots
  let specialStart ← subU32 hash_offset specialProduct
  let specialRaw ← getHashes data specialStart n_special_slots hash_size
  let special_hashes := specialRaw.enum.map
    (fun p => (CodeSigningSlot.fromU32 p.1, p.2))
  pure {
    version, flags, hash_offset, ident_offset, n_special_slots,
    n_code_slots, code_limit, hash_size,
    hash_type := HashType.fromU8 hash_type_raw,
    platform, page_size, spare2,
    scatter_offset, team_offset, spare3, code_limit_64,
    exec_seg_base, exec_seg_limit, exec_seg_flags,
    runtime, pre_encrypt_offset,
    linkage_hash_type, linkage_truncated, spare4, linkage_offset,
    linkage_size, ident, code_hashes, special_hashes
  }

/-! ## Simple blob types -/

/-- `struct EntitlementsBlob`: the plist text, kept as its bytes. -/
structure EntitlementsBlob where
  plist : Bytes
deriving DecidableEq, Repr

/-- `EntitlementsBlob::from_bytes`: validate the header magic and require
the entire remaining payload to be UTF-8. -/
def EntitlementsBlob.from_bytes (data : Bytes) : POutcome EntitlementsBlob := do
  let tail ← readAndValidateBlobHeader data 0xfade7171
  let s ← strFromUtf8 tail
  pure ⟨s⟩

/-- `struct EmbeddedSignatureBlob`. -/
structure EmbeddedSignatureBlob where
  data : Bytes
deriving DecidableEq, Repr

/-- `EmbeddedSignatureBlob::from_bytes`. -/
def EmbeddedSignatureBlob.from_bytes (data : Bytes) :
    POutcome EmbeddedSignatureBlob := do
  let tail ← readAndValidateBlobHeader data 0xfade0cc0
  pure ⟨tail⟩

/-- `struct EmbeddedSignatureOldBlob`. -/
structure EmbeddedSignatureOldBlob where
  data : Bytes
deriving DecidableEq, Repr

/-- `EmbeddedSignatureOldBlob::from_bytes`. -/
def EmbeddedSignatureOldBlob.from_bytes (data : Bytes) :
    POutcome EmbeddedSignatureOldBlob := do
  let tail ← readAndValidateBlobHeader data 0xfade0b02
  pure ⟨tail⟩

/-- `struct DetachedSignatureBlob`. -/
structure DetachedSignatureBlob where
  data : Bytes
deriving DecidableEq, Repr

/-- `DetachedSignatureBlob::from_bytes`. -/
def DetachedSignatureBlob.from_bytes (data : Bytes) :
    POutcome DetachedSignatureBlob := do
  let tail ← readAndValidateBlobHeader data 0xfade0cc1
  pure ⟨tail⟩

/-- `struct BlobWrapperBlob`. -/
structure BlobWrapperBlob where
  data : Bytes
deriving DecidableEq, Repr

/-- `BlobWrapperBlob::from_bytes`. -/
def BlobWrapperBlob.from_bytes (data : Bytes) : POutcome BlobWrapperBlob := do
  let tail ← readAndValidateBlobHeader data 0xfade0b01
  pure ⟨tail⟩

/-! ## Tagged blob dispatcher -/

/-- `enum BlobData`.  The `requirements` variant carries the segment
list of the nested `RequirementsBlob` directly (Lean nested-inductive
form of the Rust struct holding `Vec<BlobData>`). -/
inductive BlobData where
  | requirement : RequirementBlob → BlobData
  | requirements : List BlobData → BlobData
  | codeDirectory : CodeDirectoryBlob → BlobData
  | embeddedSignature : EmbeddedSignatureBlob → BlobData
  | embeddedSignatureOld : EmbeddedSignatureOldBlob → BlobData
  | embeddedEntitlements : EntitlementsBlob → BlobData
  | detachedSignature : DetachedSignatureBlob → BlobData
  | blobWrapper : BlobWrapperBlob → BlobData
  | other : Nat → Nat → Bytes → BlobData

/-- The segment loop of `RequirementsBlob::from_bytes`: each sub-blob is
framed as `&data[offset..next_offset)` (the last one extends to
`data.len()`) and fed through the supplied blob parser. -/
def reqSegsAux (f : Bytes → POutcome BlobData) (data : Bytes) :
    List (Nat × Nat) → POutcome (List BlobData)
  | [] => pure []
  | (_, off) :: rest => do
    let endOff := match rest with
      | [] => data.length
      | (_, off2) :: _ => off2
    let segData ← slice data off endOff
    let bd ← f segData
    let tail ← reqSegsAux f data rest
    pure (bd :: tail)

/-- The `(type, offset)` index table read shared by
`RequirementsBlob::from_bytes` and `EmbeddedSignature::from_bytes`:
`n` consecutive pairs of big-endian `u32` starting at `off`. -/
def readBlobIndices (data : Bytes) (off : Nat) : Nat → POutcome (List (Nat × Nat))
  | 0 => pure []
  | n + 1 => do
    let typ ← preadBE 4 data off
    let boff ← preadBE 4 data (off + 4)
    let rest ← readBlobIndices data (off + 8) n
    pure ((typ, boff) :: rest)

/-- `BlobData::from_bytes`, fuelled (the Rust function recurses into
itself through `RequirementsBlob::from_bytes` with no decreasing
measure).  The advertised blob `length` re-slices the payload before
dispatch; as the source comment notes, an overlong advertisement panics.
The `0xfade0c01` arm inlines `RequirementsBlob::from_bytes`. -/
def BlobData.fromBytesF : Nat → Bytes → POutcome BlobData
  | 0, _ => .panic
  | fuel + 1, data0 => do
    let (magic, length, _) ← readBlobHeader data0
    let data ← slice data0 0 length
    match magic with
    | 0xfade0c00 => do
      let rb ← RequirementBlob.from_bytes data
      pure (.requirement rb)
    | 0xfade0c01 => do
      let _ ← readAndValidateBlobHeader data 0xfade0c01
      let count ← preadBE 4 data 8
      let idxs ← readBlobIndices data 12 count
      let segs ← reqSegsAux (fun b => BlobData.fromBytesF fuel b) data idxs
      pure (.requirements segs)
    | 0xfade0c02 => do
      let cd ← CodeDirectoryBlob.from_bytes data
      pure (.codeDirectory cd)
    | 0xfade0cc0 => do
      let b ← EmbeddedSignatureBlob.from_bytes data
      pure (.embeddedSignature b)
    | 0xfade0b02 => do
      let b ← EmbeddedSignatureOldBlob.from_bytes data
      pure (.embeddedSignatureOld b)
    | 0xfade7171 => do
      let b ← EntitlementsBlob.from_bytes data
      pure (.embeddedEntitlements b)
    | 0xfade0cc1 => do
      let b ← DetachedSignatureBlob.from_bytes data
      pure (.detachedSignature b)
    | 0xfade0b01 => do
      let b ← BlobWrapperBlob.from_bytes data
      pure (.blobWrapper b)
    | magic => pure (.other magic length data)

/-- `BlobData::from_bytes`: dispatch a header-inclusive payload by magic. -/
def BlobData.from_bytes (data : Bytes) : POutcome BlobData :=
  BlobData.fromBytesF (data.length + 1) data

/-- `struct RequirementsBlob`. -/
structure RequirementsBlob where
  segments : List BlobData

/-- `RequirementsBlob::from_bytes`: validate the header, read the
`(type, offset)` table at offset 8, frame and parse each nested blob. -/
def RequirementsBlob.from_bytes (data : Bytes) : POutcome RequirementsBlob := do
  let _ ← readAndValidateBlobHeader data 0xfade0c01
  let count ← preadBE 4 data 8
  let idxs ← readBlobIndices data 12 count
  let segs ← reqSegsAux (fun b => BlobData.fromBytesF (b.length + 1) b) data idxs
  pure ⟨segs⟩

/-! ## Super blob -/

/-- `struct BlobEntry`. -/
structure BlobEntry where
  index : Nat
  slot : CodeSigningSlot
  offset : Nat
  magic : CodeSigningMagic
  length : Nat
  data : Bytes
deriving DecidableEq, Repr

/-- `struct EmbeddedSignature` (the lightly parsed `SuperBlob`). -/
structure EmbeddedSignature where
  magic : CodeSigningMagic
  length : Nat
  count : Nat
  data : Bytes
  blobs : List BlobEntry
deriving DecidableEq, Repr

/-- The per-index framing loop of `EmbeddedSignature::from_bytes`: the
end offset is the next index's offset, or `data.len()` for the last
entry; the inner blob header supplies the entry's magic and length. -/
def buildEntries (data : Bytes) : Nat → List (Nat × Nat) → POutcome (List BlobEntry)
  | _, [] => pure []
  | i, (typ, off) :: rest => do
    let endOff := match rest with
      | [] => data.length
      | (_, off2) :: _ => off2
    let blobData ← slice data off endOff
    let (magic, blobLength, _) ← readBlobHeader blobData
    let tail ← buildEntries data (i + 1) rest
    pure ({ index := i, slot := CodeSigningSlot.fromU32 typ, offset := off,
            magic := CodeSigningMagic.fromU32 magic, length := blobLength,
            data := blobData } :: tail)

/-- `EmbeddedSignature::from_bytes`: parse the super-blob header, the
index table, and frame each blob. -/
def EmbeddedSignature.from_bytes (data : Bytes) : POutcome EmbeddedSignature := do
  let magicRaw ← preadBE 4 data 0
  let magic := CodeSigningMagic.fromU32 magicRaw
  if magic = CodeSigningMagic.embeddedSignature then do
    let length ← preadBE 4 data 4
    let count ← preadBE 4 data 8
    let idxs ← readBlobIndices data 12 count
    let blobs ← buildEntries data 0 idxs
    pure { magic, length, count, data, blobs }
  else .error .badMagic

/-! ## Inversion lemmas for the primitive reader -/

theorem readAndValidate_ok (data : Bytes) (expected : Nat)
    (h8 : 8 ≤ data.length) (hm : beNat 4 data 0 = expected) :
    readAndValidateBlobHeader data expected = .ok (data.drop 8) := by
  have hm4 : preadBE 4 data 0 = .ok (beNat 4 data 0) := by
    unfold preadBE
    rw [if_pos (by omega)]
  have hl : preadBE 4 data 4 = .ok (beNat 4 data 4) := by
    unfold preadBE
    rw [if_pos (by omega)]
  have ht : sliceFrom data 8 = .ok (data.drop 8) := by
    unfold sliceFrom
    rw [if_pos h8]
  unfold readAndValidateBlobHeader readBlobHeader
  simp only [hm4, hl, ht, POutcome.ok_bind, POutcome.pureDef]
  rw [hm, if_pos (show expected = expected from rfl)]

theorem preadBE_ok {k : Nat} {data : Bytes} {off v : Nat}
    (h : preadBE k data off = .ok v) :
    off + k ≤ data.length ∧ v = beNat k data off := by
  unfold preadBE at h
  split at h
  · exact ⟨by assumption, (POutcome.ok.injEq _ _ ▸ h).symm⟩
  · exact absurd h (by simp)

theorem preadBE_short {k : Nat} {data : Bytes} {off : Nat}
    (h : data.length < off + k) : preadBE k data off = .error .scroll := by
  unfold preadBE
  split
  · omega
  · rfl

theorem slice_ok {data : Bytes} {a b : Nat} {l : Bytes}
    (h : slice data a b = .ok l) :
    a ≤ b ∧ b ≤ data.length ∧ l = (data.drop a).take (b - a) := by
  unfold slice at h
  split at h
  · rename_i hc
    exact ⟨hc.1, hc.2, (POutcome.ok.injEq _ _ ▸ h).symm⟩
  · exact absurd h (by simp)

theorem sliceFrom_ok {data : Bytes} {a : Nat} {l : Bytes}
    (h : sliceFrom data a = .ok l) : a ≤ data.length ∧ l = data.drop a := by
  unfold sliceFrom at h
  split at h
  · exact ⟨by assumption, (POutcome.ok.injEq _ _ ▸ h).symm⟩
  · exact absurd h (by simp)

theorem mulU32_ok {a b v : Nat} (h : mulU32 a b = .ok v) :
    a * b < 4294967296 ∧ v = a * b := by
  unfold mulU32 at h
  split at h
  · exact ⟨by assumption, (POutcome.ok.injEq _ _ ▸ h).symm⟩
  · exact absurd h (by simp)

theorem subU32_ok {a b v : Nat} (h : subU32 a b = .ok v) :
    b ≤ a ∧ v = a - b := by
  unfold subU32 at h
  split at h
  · exact ⟨by assumption, (POutcome.ok.injEq _ _ ▸ h).symm⟩
  · exact absurd h (by simp)

theorem readOptBE_ok {k : Nat} {c : Prop} [Decidable c] {data : Bytes}
    {off : Nat} {o : Option Nat} {off2 : Nat}
    (h : readOptBE k c data off = .ok (o, off2)) : (o.isSome = true ↔ c) := by
  unfold readOptBE at h
  split at h
  · rename_i hc
    split at h
    · rename_i v hv
      obtain ⟨ho, -⟩ := Prod.mk.injEq .. ▸ POutcome.ok.injEq .. ▸ h
      subst ho
      simpa using hc
    · exact absurd h (by simp)
    · exact absurd h (by simp)
  · rename_i hc
    obtain ⟨ho, -⟩ := Prod.mk.injEq .. ▸ POutcome.ok.injEq .. ▸ h
    subst ho
    simpa using hc

/-! ## Inversion of a successful code-directory decode -/

/-- Everything a successful `CodeDirectoryBlob::from_bytes` run
guarantees about its result: each version-gated field is populated
exactly when the decoded version reaches its threshold, and the
special-hash start subtraction neither overflowed nor underflowed
(u32 arithmetic, so a successful run kept `hash_size·n_special_slots`
below 2^32 and at most `hash_offset`). -/
theorem CodeDirectoryBlob.from_bytes_ok_inv (data : Bytes) (cd : CodeDirectoryBlob)
    (h : CodeDirectoryBlob.from_bytes data = .ok cd) :
    ((cd.scatter_offset.isSome = true ↔ 0x20100 ≤ cd.version) ∧
     (cd.team_offset.isSome = true ↔ 0x20200 ≤ cd.version) ∧
     (cd.spare3.isSome = true ↔ 0x20300 ≤ cd.version) ∧
     (cd.code_limit_64.isSome = true ↔ 0x20300 ≤ cd.version) ∧
     (cd.exec_seg_base.isSome = true ↔ 0x20400 ≤ cd.version) ∧
     (cd.exec_seg_limit.isSome = true ↔ 0x20400 ≤ cd.version) ∧
     (cd.exec_seg_flags.isSome = true ↔ 0x20400 ≤ cd.version) ∧
     (cd.runtime.isSome = true ↔ 0x20500 ≤ cd.version) ∧
     (cd.pre_encrypt_offset.isSome = true ↔ 0x20500 ≤ cd.version) ∧
     (cd.linkage_hash_type.isSome = true ↔ 0x20600 ≤ cd.version) ∧
     (cd.linkage_truncated.isSome = true ↔ 0x20600 ≤ cd.version) ∧
     (cd.spare4.isSome = true ↔ 0x20600 ≤ cd.version) ∧
     (cd.linkage_offset.isSome = true ↔ 0x20600 ≤ cd.version) ∧
     (cd.linkage_size.isSome = true ↔ 0x20600 ≤ cd.version)) ∧
    (cd.hash_size * cd.n_special_slots < 4294967296 ∧
     cd.hash_size * cd.n_special_slots ≤ cd.hash_offset) := by
  unfold CodeDirectoryBlob.from_bytes at h
  obtain ⟨a0, ha0, h⟩ := POutcome.bind_ok h
  obtain ⟨version, hver, h⟩ := POutcome.bind_ok h
  obtain ⟨flags, hflags, h⟩ := POutcome.bind_ok h
  obtain ⟨hash_offset, hho, h⟩ := POutcome.bind_ok h
  obtain ⟨ident_offset, hio, h⟩ := POutcome.bind_ok h
  obtain ⟨n_special_slots, hns, h⟩ := POutcome.bind_ok h
  obtain ⟨n_code_slots, hnc, h⟩ := POutcome.bind_ok h
  obtain ⟨code_limit, hcl, h⟩ := POutcome.bind_ok h
  obtain ⟨hash_size, hhs, h⟩ := POutcome.bind_ok h
  obtain ⟨hash_type_raw, hht, h⟩ := POutcome.bind_ok h
  obtain ⟨platform, hpl, h⟩ := POutcome.bind_ok h
  obtain ⟨page_size_exp, hpe, h⟩ := POutcome.bind_ok h
  obtain ⟨page_size, hps, h⟩ := POutcome.bind_ok h
  obtain ⟨spare2, hs2, h⟩ := POutcome.bind_ok h
  obtain ⟨⟨scatter_offset, o1⟩, h15, h⟩ := POutcome.bind_ok h
  obtain ⟨⟨team_offset, o2⟩, h16, h⟩ := POutcome.bind_ok h
  obtain ⟨⟨spare3, o3⟩, h17, h⟩ := POutcome.bind_ok h
  obtain ⟨⟨code_limit_64, o4⟩, h18, h⟩ := POutcome.bind_ok h
  obtain ⟨⟨exec_seg_base, o5⟩, h19, h⟩ := POutcome.bind_ok h
  obtain ⟨⟨exec_seg_limit, o6⟩, h20, h⟩ := POutcome.bind_ok h
  obtain ⟨⟨exec_seg_flags, o7⟩, h21, h⟩ := POutcome.bind_ok h
  obtain ⟨⟨runtime, o8⟩, h22, h⟩ := POutcome.bind_ok h
  obtain ⟨⟨pre_encrypt_offset, o9⟩, h23, h⟩ := POutcome.bind_ok h
  obtain ⟨⟨linkage_hash_type, o10⟩, h24, h⟩ := POutcome.bind_ok h
  obtain ⟨⟨linkage_truncated, o11⟩, h25, h⟩ := POutcome.bind_ok h
  obtain ⟨⟨spare4, o12⟩, h26, h⟩ := POutcome.bind_ok h
  obtain ⟨⟨linkage_offset, o13⟩, h27, h⟩ := POutcome.bind_ok h
  obtain ⟨⟨linkage_size, o14⟩, h28, h⟩ := POutcome.bind_ok h
  obtain ⟨identTail, hit, h⟩ := POutcome.bind_ok h
  obtain ⟨ident, hid, h⟩ := POutcome.bind_ok h
  obtain ⟨code_hashes, hch, h⟩ := POutcome.bind_ok h
  obtain ⟨specialProduct, hmul, h⟩ := POutcome.bind_ok h
  obtain ⟨specialStart, hsub, h⟩ := POutcome.bind_ok h
  obtain ⟨specialRaw, hsr, h⟩ := POutcome.bind_ok h
  simp only [POutcome.pureDef, POutcome.ok.injEq] at h
  subst h
  dsimp only
  refine ⟨⟨readOptBE_ok h15, readOptBE_ok h16, readOptBE_ok h17,
    readOptBE_ok h18, readOptBE_ok h19, readOptBE_ok h20, readOptBE_ok h21,
    readOptBE_ok h22, readOptBE_ok h23, readOptBE_ok h24, readOptBE_ok h25,
    readOptBE_ok h26, readOptBE_ok h27, readOptBE_ok h28⟩,
    (mulU32_ok hmul).1, ?_⟩
  have := (subU32_ok hsub).1
  have hm := (mulU32_ok hmul).2
  omega

/-! ## Super-blob framing invariant -/

/-- Every blob entry produced by the framing loop of
`EmbeddedSignature::from_bytes` has its backing slice inside the input
buffer: the slicing `&data[offset..end_offset]` only succeeds in bounds. -/
theorem buildEntries_bounds (data : Bytes) :
    ∀ (idxs : List (Nat × Nat)) (i : Nat) (es : List BlobEntry),
      buildEntries data i idxs = .ok es →
      ∀ e ∈ es, e.offset + e.data.length ≤ data.length := by
  intro idxs
  induction idxs with
  | nil =>
    intro i es h e he
    simp only [buildEntries, POutcome.pureDef, POutcome.ok.injEq] at h
    subst h
    simp at he
  | cons hd rest ih =>
    intro i es h e he
    obtain ⟨typ, off⟩ := hd
    simp only [buildEntries] at h
    obtain ⟨blobData, hsl, h⟩ := POutcome.bind_ok h
    obtain ⟨⟨magic, blobLength, tl⟩, hhd, h⟩ := POutcome.bind_ok h
    obtain ⟨tail, htail, h⟩ := POutcome.bind_ok h
    simp only [POutcome.pureDef, POutcome.ok.injEq] at h
    subst h
    obtain ⟨hle, hbound, hbd⟩ := slice_ok hsl
    rcases List.mem_cons.mp he with he | he
    · subst he
      dsimp only
      have hlen : blobData.length ≤ data.length - off := by
        subst hbd
        simp only [List.length_take, List.length_drop]
        omega
      omega
    · exact ih (i + 1) tail htail e he

/-- Claim C2 (corrected form): a successful super-blob decode frames
every blob inside the input buffer — `offset + data.len() ≤ b.len()`
for each entry — because the slicing would have panicked otherwise.
(The claim's original bound on the wire `length` fields does not hold:
see the counterexample.) -/
theorem claim_C2_amended (b : Bytes) (sb : EmbeddedSignature)
    (h : EmbeddedSignature.from_bytes b = .ok sb) :
    ∀ e ∈ sb.blobs, e.offset + e.data.length ≤ b.length := by
  unfold EmbeddedSignature.from_bytes at h
  obtain ⟨magicRaw, hm, h⟩ := POutcome.bind_ok h
  dsimp only at h
  split at h
  · obtain ⟨length, hl, h⟩ := POutcome.bind_ok h
    obtain ⟨count, hc, h⟩ := POutcome.bind_ok h
    obtain ⟨idxs, hi, h⟩ := POutcome.bind_ok h
    obtain ⟨blobs, hb, h⟩ := POutcome.bind_ok h
    simp only [POutcome.pureDef, POutcome.ok.injEq] at h
    subst h
    exact buildEntries_bounds b idxs 0 blobs hb
  · exact absurd h (by simp)

/-- Super-blob whose header advertises length `0xffffffff` over a
12-byte buffer; the decoder accepts it verbatim. -/
def c2cexBytes : Bytes := [0xfa, 0xde, 0x0c, 0xc0, 0xff, 0xff, 0xff, 0xff, 0, 0, 0, 0]

/-- The decoded super blob for `c2cexBytes`. -/
def c2cexSB : EmbeddedSignature :=
  { magic := .embeddedSignature, length := 4294967295, count := 0,
    data := c2cexBytes, blobs := [] }

/-- Claim C2 (counterexample): `EmbeddedSignature::from_bytes` returns
`Ok` with `length = 0xffffffff` on a 12-byte buffer — the claimed bound
`length ≤ b.len()` is false; the wire `length` field is never validated. -/
theorem claim_C2_counterexample :
    EmbeddedSignature.from_bytes c2cexBytes = .ok c2cexSB ∧
    c2cexSB.length = 4294967295 ∧ c2cexBytes.length = 12 ∧
    ¬ c2cexSB.length ≤ c2cexBytes.length :=
  ⟨rfl, rfl, rfl, by decide⟩

/-- A 28-byte super blob with one well-formed entry (slot 5, an
unrecognised inner magic, inner length 8). -/
def esWitBytes : Bytes :=
  [0xfa, 0xde, 0x0c, 0xc0, 0, 0, 0, 28, 0, 0, 0, 1,
   0, 0, 0, 5, 0, 0, 0, 20,
   0x01, 0x02, 0x03, 0x04, 0, 0, 0, 8]

/-- The single entry decoded from `esWitBytes`. -/
def esWitEntry : BlobEntry :=
  { index := 0, slot := .entitlements, offset := 20,
    magic := .unknown 0x01020304, length := 8,
    data := [0x01, 0x02, 0x03, 0x04, 0, 0, 0, 8] }

/-- The super blob decoded from `esWitBytes`. -/
def esWitSB : EmbeddedSignature :=
  { magic := .embeddedSignature, length := 28, count := 1,
    data := esWitBytes, blobs := [esWitEntry] }

/-- Witness for `claim_C2_amended` at a concrete successful decode. -/
theorem claim_C2_witness :
    EmbeddedSignature.from_bytes esWitBytes = .ok esWitSB ∧
    esWitEntry.offset + esWitEntry.data.length ≤ esWitBytes.length :=
  ⟨rfl, claim_C2_amended esWitBytes esWitSB rfl esWitEntry (List.mem_singleton.mpr rfl)⟩

/-! ## Claims about the code directory -/

/-- Code directory whose `hash_offset = 0`, `hash_size = 20`,
`n_special_slots = 1`: the special-hash start subtraction underflows. -/
def c3cexBytes : Bytes :=
  [0xfa, 0xde, 0x0c, 0x02, 0, 0, 0, 45,
   0, 2, 0, 0, 0, 0, 0, 0, 0, 0, 0, 0, 0, 0, 0, 44,
   0, 0, 0, 1, 0, 0, 0, 0, 0, 0, 0, 0,
   20, 1, 0, 12, 0, 0, 0, 0, 0]

/-- Claim C3 (counterexample): on an input where
`hash_offset − hash_size·n_special_slots` underflows, the decoder
panics — it does not return a `BadOffset` error (no such variant even
exists in `MachOParseError`). -/
theorem claim_C3_counterexample :
    (CodeDirectoryBlob.from_bytes c3cexBytes).isPanic = true := rfl

/-- Claim C3 (corrected form): the special-hash start computation is
unchecked `u32` arithmetic, so a successful decode implies the
multiplication stayed below 2^32 and the subtraction did not
underflow; inputs that would underflow or overflow panic instead of
producing an error. -/
theorem claim_C3_amended (data : Bytes) (cd : CodeDirectoryBlob)
    (h : CodeDirectoryBlob.from_bytes data = .ok cd) :
    cd.hash_size * cd.n_special_slots < 4294967296 ∧
    cd.hash_size * cd.n_special_slots ≤ cd.hash_offset :=
  (CodeDirectoryBlob.from_bytes_ok_inv data cd h).2

/-- Minimal successfully decoding code directory (version `0x20000`,
no slots, empty identifier). -/
def cdOkBytes : Bytes :=
  [0xfa, 0xde, 0x0c, 0x02, 0, 0, 0, 45,
   0, 2, 0, 0, 0, 0, 0, 0, 0, 0, 0, 0, 0, 0, 0, 44,
   0, 0, 0, 0, 0, 0, 0, 0, 0, 0, 0, 0,
   20, 1, 0, 12, 0, 0, 0, 0, 0]

/-- The decode of `cdOkBytes`. -/
def cdOkCD : CodeDirectoryBlob :=
  { version := 0x20000, flags := 0, hash_offset := 0, ident_offset := 44,
    n_special_slots := 0, n_code_slots := 0, code_limit := 0, hash_size := 20,
    hash_type := .sha1, platform := 0, page_size := 4096, spare2 := 0,
    scatter_offset := none, team_offset := none, spare3 := none,
    code_limit_64 := none, exec_seg_base := none, exec_seg_limit := none,
    exec_seg_flags := none, runtime := none, pre_encrypt_offset := none,
    linkage_hash_type := none, linkage_truncated := none, spare4 := none,
    linkage_offset := none, linkage_size := none,
    ident := [], code_hashes := [], special_hashes := [] }

/-- Witness for `claim_C3_amended` at a concrete successful decode. -/
theorem claim_C3_witness :
    CodeDirectoryBlob.from_bytes cdOkBytes = .ok cdOkCD ∧
    (cdOkCD.hash_size * cdOkCD.n_special_slots < 4294967296 ∧
     cdOkCD.hash_size * cdOkCD.n_special_slots ≤ cdOkCD.hash_offset) :=
  ⟨rfl, claim_C3_amended cdOkBytes cdOkCD rfl⟩

/-- Claim C6: whenever `CodeDirectoryBlob::from_bytes` succeeds, each
version-gated optional field is populated exactly when the decoded
version reaches the field's introduction threshold. -/
theorem claim_C6_version_gated_fields (data : Bytes) (cd : CodeDirectoryBlob)
    (h : CodeDirectoryBlob.from_bytes data = .ok cd) :
    (cd.scatter_offset.isSome = true ↔ 0x20100 ≤ cd.version) ∧
    (cd.team_offset.isSome = true ↔ 0x20200 ≤ cd.version) ∧
    (cd.spare3.isSome = true ↔ 0x20300 ≤ cd.version) ∧
    (cd.code_limit_64.isSome = true ↔ 0x20300 ≤ cd.version) ∧
    (cd.exec_seg_base.isSome = true ↔ 0x20400 ≤ cd.version) ∧
    (cd.exec_seg_limit.isSome = true ↔ 0x20400 ≤ cd.version) ∧
    (cd.exec_seg_flags.isSome = true ↔ 0x20400 ≤ cd.version) ∧
    (cd.runtime.isSome = true ↔ 0x20500 ≤ cd.version) ∧
    (cd.pre_encrypt_offset.isSome = true ↔ 0x20500 ≤ cd.version) ∧
    (cd.linkage_hash_type.isSome = true ↔ 0x20600 ≤ cd.version) ∧
    (cd.linkage_truncated.isSome = true ↔ 0x20600 ≤ cd.version) ∧
    (cd.spare4.isSome = true ↔ 0x20600 ≤ cd.version) ∧
    (cd.linkage_offset.isSome = true ↔ 0x20600 ≤ cd.version) ∧
    (cd.linkage_size.isSome = true ↔ 0x20600 ≤ cd.version) :=
  (CodeDirectoryBlob.from_bytes_ok_inv data cd h).1

/-- Witness for `claim_C6_version_gated_fields` at a concrete
successful decode. -/
theorem claim_C6_witness :
    CodeDirectoryBlob.from_bytes cdOkBytes = .ok cdOkCD ∧
    ((cdOkCD.scatter_offset.isSome = true ↔ 0x20100 ≤ cdOkCD.version) ∧
     (cdOkCD.team_offset.isSome = true ↔ 0x20200 ≤ cdOkCD.version) ∧
     (cdOkCD.spare3.isSome = true ↔ 0x20300 ≤ cdOkCD.version) ∧
     (cdOkCD.code_limit_64.isSome = true ↔ 0x20300 ≤ cdOkCD.version) ∧
     (cdOkCD.exec_seg_base.isSome = true ↔ 0x20400 ≤ cdOkCD.version) ∧
     (cdOkCD.exec_seg_limit.isSome = true ↔ 0x20400 ≤ cdOkCD.version) ∧
     (cdOkCD.exec_seg_flags.isSome = true ↔ 0x20400 ≤ cdOkCD.version) ∧
     (cdOkCD.runtime.isSome = true ↔ 0x20500 ≤ cdOkCD.version) ∧
     (cdOkCD.pre_encrypt_offset.isSome = true ↔ 0x20500 ≤ cdOkCD.version) ∧
     (cdOkCD.linkage_hash_type.isSome = true ↔ 0x20600 ≤ cdOkCD.version) ∧
     (cdOkCD.linkage_truncated.isSome = true ↔ 0x20600 ≤ cdOkCD.version) ∧
     (cdOkCD.spare4.isSome = true ↔ 0x20600 ≤ cdOkCD.version) ∧
     (cdOkCD.linkage_offset.isSome = true ↔ 0x20600 ≤ cdOkCD.version) ∧
     (cdOkCD.linkage_size.isSome = true ↔ 0x20600 ≤ cdOkCD.version)) :=
  ⟨rfl, claim_C6_version_gated_fields cdOkBytes cdOkCD rfl⟩

/-! ## Claims about the enum conversions -/

/-- Claim C7 (counterexample): the slot round-trip fails in the
`Slot → u32 → Slot` direction for non-canonical `Unknown` values —
`Unknown(0)` converts to `0`, which converts back to `CodeDirectory`. -/
theorem claim_C7_counterexample :
    CodeSigningSlot.fromU32 (CodeSigningSlot.toU32 (CodeSigningSlot.unknown 0)) =
      CodeSigningSlot.codeDirectory ∧
    CodeSigningSlot.unknown 0 ≠ CodeSigningSlot.codeDirectory :=
  ⟨rfl, by decide⟩

/-- Claim C7 (corrected form): the wire direction
`to_u32 ∘ from_u32 = id` holds for every value, for both `Slot` and
`Magic`; the other direction `from_u32 ∘ to_u32 = id` holds exactly for
values whose `Unknown` payload (if any) is not a known constant. -/
theorem claim_C7_roundtrips :
    (∀ v : Nat, CodeSigningSlot.toU32 (CodeSigningSlot.fromU32 v) = v) ∧
    (∀ s : CodeSigningSlot,
      (∀ w, s = .unknown w → CodeSigningSlot.fromU32 w = .unknown w) →
      CodeSigningSlot.fromU32 (CodeSigningSlot.toU32 s) = s) ∧
    (∀ v : Nat, CodeSigningMagic.toU32 (CodeSigningMagic.fromU32 v) = v) ∧
    (∀ m : CodeSigningMagic,
      (∀ w, m = .unknown w → CodeSigningMagic.fromU32 w = .unknown w) →
      CodeSigningMagic.fromU32 (CodeSigningMagic.toU32 m) = m) := by
  refine ⟨?_, ?_, ?_, ?_⟩
  · intro v
    by_cases h1 : v = 0
    · subst h1; rfl
    by_cases h2 : v = 1
    · subst h2; rfl
    by_cases h3 : v = 2
    · subst h3; rfl
    by_cases h4 : v = 3
    · subst h4; rfl
    by_cases h5 : v = 4
    · subst h5; rfl
    by_cases h6 : v = 5
    · subst h6; rfl
    by_cases h7 : v = 0x1000
    · subst h7; rfl
    by_cases h8 : v = 0x1001
    · subst h8; rfl
    by_cases h9 : v = 0x1002
    · subst h9; rfl
    by_cases h10 : v = 0x1003
    · subst h10; rfl
    by_cases h11 : v = 0x1004
    · subst h11; rfl
    by_cases h12 : v = 0x10000
    · subst h12; rfl
    by_cases h13 : v = 0x10001
    · subst h13; rfl
    by_cases h14 : v = 0x10002
    · subst h14; rfl
    simp only [CodeSigningSlot.fromU32, CodeSigningSlot.toU32,
      if_neg h1, if_neg h2, if_neg h3, if_neg h4, if_neg h5, if_neg h6,
      if_neg h7, if_neg h8, if_neg h9, if_neg h10, if_neg h11, if_neg h12,
      if_neg h13, if_neg h14]
  · intro s hs
    cases s
    case unknown w => exact hs w rfl
    all_goals rfl
  · intro v
    by_cases h1 : v = 0xfade0c00
    · subst h1; rfl
    by_cases h2 : v = 0xfade0c01
    · subst h2; rfl
    by_cases h3 : v = 0xfade0c02
    · subst h3; rfl
    by_cases h4 : v = 0xfade0cc0
    · subst h4; rfl
    by_cases h5 : v = 0xfade0b02
    · subst h5; rfl
    by_cases h6 : v = 0xfade7171
    · subst h6; rfl
    by_cases h7 : v = 0xfade0cc1
    · subst h7; rfl
    by_cases h8 : v = 0xfade0b01
    · subst h8; rfl
    simp only [CodeSigningMagic.fromU32, CodeSigningMagic.toU32,
      if_neg h1, if_neg h2, if_neg h3, if_neg h4, if_neg h5, if_neg h6,
      if_neg h7, if_neg h8]
  · intro m hm
    cases m
    case unknown w => exact hm w rfl
    all_goals rfl

/-- Witness for `claim_C7_roundtrips`: concrete instantiations, with the
canonicality hypotheses discharged at genuinely unknown values. -/
theorem claim_C7_witness :
    CodeSigningSlot.toU32 (CodeSigningSlot.fromU32 3) = 3 ∧
    CodeSigningSlot.fromU32 (CodeSigningSlot.toU32 (CodeSigningSlot.unknown 99)) =
      CodeSigningSlot.unknown 99 ∧
    CodeSigningMagic.toU32 (CodeSigningMagic.fromU32 0xfade0c01) = 0xfade0c01 ∧
    CodeSigningMagic.fromU32 (CodeSigningMagic.toU32 (CodeSigningMagic.unknown 7)) =
      CodeSigningMagic.unknown 7 :=
  ⟨claim_C7_roundtrips.1 3,
   claim_C7_roundtrips.2.1 (.unknown 99)
     (fun w hw => by injection hw with hw; subst hw; decide),
   claim_C7_roundtrips.2.2.1 0xfade0c01,
   claim_C7_roundtrips.2.2.2 (.unknown 7)
     (fun w hw => by injection hw with hw; subst hw; decide)⟩

/-- Claim C9: the `HashType` conversions round-trip on the wire side:
`Into<u8> ∘ From<u8>` is the identity (unknown tags are preserved in
`Unknown`). -/
theorem claim_C9_hashtype_roundtrip :
    ∀ v : Nat, HashType.toU8 (HashType.fromU8 v) = v := by
  intro v
  by_cases h1 : v = 0
  · subst h1; rfl
  by_cases h2 : v = 1
  · subst h2; rfl
  by_cases h3 : v = 2
  · subst h3; rfl
  by_cases h4 : v = 3
  · subst h4; rfl
  by_cases h5 : v = 4
  · subst h5; rfl
  simp only [HashType.fromU8, HashType.toU8,
    if_neg h1, if_neg h2, if_neg h3, if_neg h4, if_neg h5]

/-! ## Claims about panic freedom -/

/-- Blob whose header advertises `length = 9` over an 8-byte buffer:
the re-slicing `&data[0..length]` in `BlobData::from_bytes` panics. -/
def c1cexBytes : Bytes := [0x11, 0x22, 0x33, 0x44, 0, 0, 0, 9]

/-- Claim C1 (counterexample): `BlobData::from_bytes` panics on an
8-byte input whose advertised length exceeds the buffer — the decoders
are not panic-free. -/
theorem claim_C1_counterexample : (BlobData.from_bytes c1cexBytes).isPanic = true := rfl

/-- Claim C1 (corrected form): the decoders do return taxonomy errors
rather than panicking when the input is too short to hold the leading
header integer — every listed decoder maps a sub-4-byte input to the
scroll read error.  (Panics remain reachable once headers parse: see
the counterexample.) -/
theorem claim_C1_amended (data : Bytes) (h : data.length < 4) :
    EmbeddedSignature.from_bytes data = .error .scroll ∧
    BlobData.from_bytes data = .error .scroll ∧
    CodeDirectoryBlob.from_bytes data = .error .scroll ∧
    RequirementsBlob.from_bytes data = .error .scroll ∧
    Expression.from_bytes data = .error .scroll := by
  have h0 : preadBE 4 data 0 = .error .scroll := preadBE_short (by omega)
  refine ⟨?_, ?_, ?_, ?_, ?_⟩
  · unfold EmbeddedSignature.from_bytes
    simp only [h0, POutcome.error_bind]
  · unfold BlobData.from_bytes
    simp only [BlobData.fromBytesF, readBlobHeader, h0, POutcome.error_bind]
  · unfold CodeDirectoryBlob.from_bytes readAndValidateBlobHeader readBlobHeader
    simp only [h0, POutcome.error_bind]
  · unfold RequirementsBlob.from_bytes readAndValidateBlobHeader readBlobHeader
    simp only [h0, POutcome.error_bind]
  · unfold Expression.from_bytes
    simp only [Expression.fromBytesF, h0, POutcome.error_bind]

/-- Witness for `claim_C1_amended` on the empty input. -/
theorem claim_C1_witness :
    ([] : Bytes).length < 4 ∧
    (EmbeddedSignature.from_bytes [] = .error .scroll ∧
     BlobData.from_bytes [] = .error .scroll ∧
     CodeDirectoryBlob.from_bytes [] = .error .scroll ∧
     RequirementsBlob.from_bytes [] = .error .scroll ∧
     Expression.from_bytes [] = .error .scroll) :=
  ⟨by decide, claim_C1_amended [] (by decide)⟩

/-! ## Claim about the identifier terminator -/

/-- Code directory whose identifier region (`ident_offset = 44` to the
end) is `[65]` — no NUL terminator anywhere. -/
def c4bugBytes : Bytes :=
  [0xfa, 0xde, 0x0c, 0x02, 0, 0, 0, 45,
   0, 2, 0, 0, 0, 0, 0, 0, 0, 0, 0, 0, 0, 0, 0, 44,
   0, 0, 0, 0, 0, 0, 0, 0, 0, 0, 0, 0,
   20, 1, 0, 12, 0, 0, 0, 0, 65]

/-- Claim C4 (code bug): on an input with no NUL terminator after
`ident_offset`, `CodeDirectoryBlob::from_bytes` succeeds and returns the
entire unterminated tail as the identifier instead of failing with
`BadIdentifierString` — the `None` arm of the `split(...).next()` match
that would raise that error is unreachable (`split` always yields at
least one chunk; see `splitOnZero_ne_nil`). -/
theorem claim_C4_missing_nul_accepted :
    (CodeDirectoryBlob.from_bytes c4bugBytes).getOk?.map CodeDirectoryBlob.ident =
      some [65] := rfl

/-! ## Claims about requirement expressions -/

/-- Ident expression buffer: tag 2 followed by the five bytes
`"abcdx"`. -/
def c5cexBytes : Bytes := [0, 0, 0, 2, 97, 98, 99, 100, 120]

/-- Claim C5 (counterexample): on tag-2 input with payload `"abcdx"`
the decoder returns `Ident("x")`, not `Ident("abcdx")` — the tag-2 arm
indexes the already-advanced tail by the 4-byte offset a second time,
so the first four payload bytes are skipped. -/
theorem claim_C5_counterexample :
    (Expression.from_bytes c5cexBytes).getOk?.map Prod.fst =
      some (Expression.ident [120]) ∧
    Expression.ident [120] ≠ Expression.ident (c5cexBytes.drop 4) :=
  ⟨rfl, by decide⟩

/-- Claim C5 (corrected form): for a tag-2 buffer of at least 8 bytes
whose bytes after the first 8 are valid UTF-8, the decoder returns
`Ident` of the bytes after the first **8** bytes (tag plus four more),
with the bytes after the tag as residual.  (Buffers of 4–7 bytes panic
on the second offset indexing.) -/
theorem claim_C5_amended (data : Bytes) (htag : beNat 4 data 0 = 2)
    (hlen : 8 ≤ data.length) (hutf : utf8Valid (data.drop 8) = true) :
    Expression.from_bytes data = .ok (.ident (data.drop 8), data.drop 4) := by
  have htagr : preadBE 4 data 0 = .ok 2 := by
    unfold preadBE
    rw [if_pos (by omega), htag]
  have hs4 : sliceFrom data 4 = .ok (data.drop 4) := by
    unfold sliceFrom
    rw [if_pos (by omega)]
  have hs8 : sliceFrom (data.drop 4) 4 = .ok (data.drop 8) := by
    unfold sliceFrom
    rw [if_pos (by simp only [List.length_drop]; omega)]
    rw [List.drop_drop]
  have hu : strFromUtf8 (data.drop 8) = .ok (data.drop 8) := by
    unfold strFromUtf8
    rw [if_pos hutf]
  unfold Expression.from_bytes
  simp only [Expression.fromBytesF, htagr, hs4, hs8, hu, POutcome.ok_bind]
  rfl

/-- Well-formed tag-2 buffer for the witness. -/
def c5witBytes : Bytes := [0, 0, 0, 2, 1, 2, 3, 4, 65]

/-- Witness for `claim_C5_amended`. -/
theorem claim_C5_witness :
    beNat 4 c5witBytes 0 = 2 ∧ 8 ≤ c5witBytes.length ∧
    utf8Valid (c5witBytes.drop 8) = true ∧
    Expression.from_bytes c5witBytes =
      .ok (.ident (c5witBytes.drop 8), c5witBytes.drop 4) :=
  ⟨by decide, by decide, by decide,
   claim_C5_amended c5witBytes (by decide) (by decide) (by decide)⟩

/-! ## Claims about unknown wire values -/

/-- The wire constants with a named `CodeSigningSlot` variant. -/
def knownSlotValues : List Nat :=
  [0, 1, 2, 3, 4, 5, 0x1000, 0x1001, 0x1002, 0x1003, 0x1004,
   0x10000, 0x10001, 0x10002]

/-- Four-byte buffer whose leading magic matches no known constant. -/
def c8cexBytes : Bytes := [0x11, 0x22, 0x33, 0x44]

/-- Claim C8 (counterexample): an unknown-magic payload does not always
decode successfully — a 4-byte buffer has an unknown leading magic yet
`BlobData::from_bytes` fails with a read error (the header needs 8
bytes). -/
theorem claim_C8_counterexample :
    CodeSigningMagic.fromU32 (beNat 4 c8cexBytes 0) = .unknown 0x11223344 ∧
    BlobData.from_bytes c8cexBytes = .error .scroll :=
  ⟨rfl, rfl⟩

/-- Claim C8 (corrected form): when the 8-byte header parses and the
advertised length fits the buffer, an unknown magic is not an error:
`BlobData::from_bytes` succeeds with `Other(magic, length, bytes)`;
and unknown slot values are preserved by the slot conversion
(`Slot::from` is total, with `Unknown(v)` for every non-constant `v`,
which is what a decoded `BlobEntry` stores). -/
theorem claim_C8_amended :
    (∀ data : Bytes, 8 ≤ data.length → beNat 4 data 4 ≤ data.length →
      CodeSigningMagic.fromU32 (beNat 4 data 0) = .unknown (beNat 4 data 0) →
      BlobData.from_bytes data =
        .ok (.other (beNat 4 data 0) (beNat 4 data 4)
          (data.take (beNat 4 data 4)))) ∧
    (∀ v : Nat, v ∉ knownSlotValues → CodeSigningSlot.fromU32 v = .unknown v) := by
  constructor
  · intro data h8 hlen hmagic
    have hm : preadBE 4 data 0 = .ok (beNat 4 data 0) := by
      unfold preadBE
      rw [if_pos (by omega)]
    have hl : preadBE 4 data 4 = .ok (beNat 4 data 4) := by
      unfold preadBE
      rw [if_pos (by omega)]
    have ht : sliceFrom data 8 = .ok (data.drop 8) := by
      unfold sliceFrom
      rw [if_pos h8]
    have hs : slice data 0 (beNat 4 data 4) = .ok (data.take (beNat 4 data 4)) := by
      unfold slice
      rw [if_pos ⟨Nat.zero_le _, hlen⟩]
      simp
    unfold BlobData.from_bytes
    simp only [BlobData.fromBytesF, readBlobHeader, hm, hl, ht, hs,
      POutcome.ok_bind, POutcome.pureDef]
    split
    all_goals try rfl
    all_goals (rename_i heq; rw [heq] at hmagic; exact absurd hmagic (by decide))
  · intro v hv
    simp only [knownSlotValues, List.mem_cons, List.not_mem_nil, or_false] at hv
    push_neg at hv
    obtain ⟨n1, n2, n3, n4, n5, n6, n7, n8, n9, n10, n11, n12, n13, n14⟩ := hv
    simp only [CodeSigningSlot.fromU32, if_neg n1, if_neg n2, if_neg n3,
      if_neg n4, if_neg n5, if_neg n6, if_neg n7, if_neg n8, if_neg n9,
      if_neg n10, if_neg n11, if_neg n12, if_neg n13, if_neg n14]

/-- Well-framed unknown-magic blob for the witness. -/
def c8witBytes : Bytes := [0xca, 0xfe, 0xd0, 0x0d, 0, 0, 0, 8]

/-- Witness for `claim_C8_amended`. -/
theorem claim_C8_witness :
    (8 ≤ c8witBytes.length ∧ beNat 4 c8witBytes 4 ≤ c8witBytes.length ∧
     CodeSigningMagic.fromU32 (beNat 4 c8witBytes 0) =
       .unknown (beNat 4 c8witBytes 0) ∧
     BlobData.from_bytes c8witBytes =
       .ok (.other (beNat 4 c8witBytes 0) (beNat 4 c8witBytes 4)
         (c8witBytes.take (beNat 4 c8witBytes 4)))) ∧
    (0xdeadbeef ∉ knownSlotValues ∧
     CodeSigningSlot.fromU32 0xdeadbeef = .unknown 0xdeadbeef) :=
  ⟨⟨by decide, by decide, by decide,
    claim_C8_amended.1 c8witBytes (by decide) (by decide) (by decide)⟩,
   ⟨by decide, claim_C8_amended.2 0xdeadbeef (by decide)⟩⟩

/-! ## Claim about the entitlements blob -/

/-- Claim C10: for any input of at least 8 bytes carrying the
embedded-entitlements magic, `EntitlementsBlob::from_bytes` succeeds
exactly when the entire payload after the 8-byte header is valid UTF-8
(yielding that payload as the plist text), and fails with the UTF-8
error otherwise; nothing beyond UTF-8 validity is checked. -/
theorem claim_C10_entitlements (data : Bytes) (h8 : 8 ≤ data.length)
    (hm : beNat 4 data 0 = 0xfade7171) :
    EntitlementsBlob.from_bytes data =
      if utf8Valid (data.drop 8) then .ok ⟨data.drop 8⟩ else .error .utf8 := by
  have hv : readAndValidateBlobHeader data 0xfade7171 = .ok (data.drop 8) :=
    readAndValidate_ok data 0xfade7171 h8 hm
  unfold EntitlementsBlob.from_bytes
  simp only [hv, POutcome.ok_bind]
  by_cases hu : utf8Valid (data.drop 8) = true
  · unfold strFromUtf8
    rw [if_pos hu, if_pos hu]
    rfl
  · unfold strFromUtf8
    rw [if_neg hu, if_neg hu]
    rfl

/-- Entitlements blob with the plist byte `"p"`. -/
def c10witBytes : Bytes := [0xfa, 0xde, 0x71, 0x71, 0, 0, 0, 9, 0x70]

/-- Witness for `claim_C10_entitlements`. -/
theorem claim_C10_witness :
    8 ≤ c10witBytes.length ∧ beNat 4 c10witBytes 0 = 0xfade7171 ∧
    EntitlementsBlob.from_bytes c10witBytes =
      (if utf8Valid (c10witBytes.drop 8) then .ok ⟨c10witBytes.drop 8⟩
       else .error .utf8) :=
  ⟨by decide, by decide,
   claim_C10_entitlements c10witBytes (by decide) (by decide)⟩

end AppleCodesign
